import Mathlib

/-!
Verification development for `scripts/monitor_synced.py`, a liveness/progress
monitor for a blockchain full node.  The Python source is shallowly embedded:
each Python function becomes a pure Lean function, the external world (remote
RPC responses, local metrics text, wall-clock samples) is passed in as explicit
oracle arguments, `time.sleep` calls are recorded in a returned list of sleep
durations, `exit(n)` and uncaught Python exceptions become explicit outcome
constructors.
-/

/-- Constant `NUM_RETRIES = 5` from the source. -/
def NUM_RETRIES : Nat := 5

/-- Constant `CHECKPOINT_STUCK_THRESHOLD_SEC = 10` from the source. -/
def CHECKPOINT_STUCK_THRESHOLD_SEC : Nat := 10

/-- Constant `START_AWAIT_TIME_SEC = 60` from the source. -/
def START_AWAIT_TIME_SEC : Nat := 60

/-- Constant `EPOCH_STUCK_THRESHOLD_SEC = 20 * 60` from the source. -/
def EPOCH_STUCK_THRESHOLD_SEC : Nat := 20 * 60

/-- Constant `RETRY_BASE_TIME_SEC = 3` from the source. -/
def RETRY_BASE_TIME_SEC : Nat := 3

/-- Python exception kinds relevant to the script. -/
inductive PyExc where
  | keyError
  | indexError
  | typeError
  | valueError
  | jsonDecodeError
  | attributeError
deriving DecidableEq, Repr

/-- Outcome of running a Python function: a normal return, a call to
`exit(code)`, or an uncaught exception propagating out. -/
inductive PyOutcome (α : Type) where
  | ret (a : α)
  | exitP (code : Nat)
  | raise (e : PyExc)
deriving DecidableEq, Repr

/-- Boolean list-prefix test (structural, so that closed terms reduce). -/
def listPrefixB : List Char → List Char → Bool
  | [], _ => true
  | _ :: _, [] => false
  | a :: as, b :: bs => a == b && listPrefixB as bs

/-- Boolean list-infix test. -/
def listInfixB (needle : List Char) : List Char → Bool
  | [] => needle.isEmpty
  | b :: bs => listPrefixB needle (b :: bs) || listInfixB needle bs

/-- Substring test, used for Python's `in` on strings and for `grep` with a
pattern free of regex metacharacters. -/
def strHasSubstr (needle hay : String) : Bool :=
  listInfixB needle.toList hay.toList

/-- ASCII whitespace, as recognized by Python's `bytes.split()` and by
`int()`'s surrounding-whitespace stripping. -/
def isPyWs (c : Char) : Bool :=
  c == ' ' || c == '\t' || c == '\n' || c == '\r' || c == '\x0b' || c == '\x0c'

/-- Drop leading whitespace. -/
def dropWsLeft : List Char → List Char
  | [] => []
  | c :: cs => if isPyWs c then dropWsLeft cs else c :: cs

/-- Strip whitespace from both ends. -/
def trimWs (cs : List Char) : List Char :=
  ((dropWsLeft cs.reverse).reverse |> dropWsLeft)

/-- Accumulate the decimal value of a digit run; `none` on a non-digit. -/
def digitsToNatGo : List Char → Nat → Option Nat
  | [], acc => some acc
  | c :: cs, acc =>
    if c.isDigit then digitsToNatGo cs (acc * 10 + (c.toNat - 48)) else none

/-- Python `int(s)` on a string (or `bytes` token): strip surrounding
whitespace, optional sign, then a nonempty run of decimal digits; anything
else raises `ValueError` (digit-group underscores are not modelled). -/
def pyIntStr (s : String) : Except PyExc Int :=
  let t := trimWs s.toList
  let neg := listPrefixB ['-'] t
  let ds := match t with
    | [] => ([] : List Char)
    | c :: cs => if c == '-' || c == '+' then cs else c :: cs
  match ds with
  | [] => .error .valueError
  | _ =>
    match digitsToNatGo ds 0 with
    | some n => .ok (if neg then -(n : Int) else (n : Int))
    | none => .error .valueError

/-- Worker for whitespace splitting: second argument is the reversed
current token. -/
def splitWsGo : List Char → List Char → List (List Char)
  | [], acc => if acc.isEmpty then [] else [acc.reverse]
  | c :: cs, acc =>
    if isPyWs c then
      if acc.isEmpty then splitWsGo cs [] else acc.reverse :: splitWsGo cs []
    else splitWsGo cs (c :: acc)

/-- Python `bytes.split()` with no argument: split on runs of ASCII
whitespace, discarding empty pieces. -/
def pySplitWs (s : String) : List String :=
  (splitWsGo s.toList []).map fun t => String.mk t

/-- Values produced by Python's `json.loads` (numbers modelled as integers;
the script's claims never involve fractional values). -/
inductive Json where
  | null
  | bool (b : Bool)
  | num (n : Int)
  | str (s : String)
  | arr (elems : List Json)
  | obj (fields : List (String × Json))

/-- Python subscript `j[k]` with a string key: succeeds only on a dict with
that key (`KeyError` when absent); every other value raises `TypeError`. -/
def pyGetItemStr (j : Json) (k : String) : Except PyExc Json :=
  match j with
  | .obj fields =>
    match fields.find? fun p => p.1 == k with
    | some p => .ok p.2
    | none => .error .keyError
  | _ => .error .typeError

/-- Python subscript `j[i]` with an integer index: list indexing
(`IndexError` out of range), string indexing, dict gives `KeyError` (JSON
objects have only string keys), anything else `TypeError`. -/
def pyGetItemNat (j : Json) (i : Nat) : Except PyExc Json :=
  match j with
  | .arr elems =>
    match elems.get? i with
    | some v => .ok v
    | none => .error .indexError
  | .obj _ => .error .keyError
  | .str s =>
    match s.toList.get? i with
    | some c => .ok (.str (String.mk [c]))
    | none => .error .indexError
  | _ => .error .typeError

/-- Python `int(x)` on a decoded JSON value. -/
def pyIntJson (j : Json) : Except PyExc Int :=
  match j with
  | .num n => .ok n
  | .str s => pyIntStr s
  | .bool b => .ok (if b then 1 else 0)
  | _ => .error .typeError

/-- Python membership test `k in j`: key lookup on dicts, element equality
on lists, substring on strings; `TypeError` on non-containers. -/
def pyContains (k : String) (j : Json) : Except PyExc Bool :=
  match j with
  | .obj fields => .ok (fields.any fun p => p.1 == k)
  | .arr elems => .ok (elems.any fun e => match e with | .str s => s == k | _ => false)
  | .str s => .ok (strHasSubstr k s)
  | _ => .error .typeError

/-- The `Metric` enumeration from the source. -/
inductive Metric where
  | CHECKPOINT
  | EPOCH
deriving DecidableEq, Repr

/-- The textual gauge name attached to each `Metric` variant. -/
def Metric.value : Metric → String
  | .CHECKPOINT => "last_executed_checkpoint"
  | .EPOCH => "current_epoch"

/-- What the environment supplies for one attempt of the remote epoch fetch:
either the curl subprocess fails (`CalledProcessError` with a return code) or
it yields a body, given here as the result of `json.loads` (`none` when the
body is not valid JSON, i.e. `json.loads` raises `JSONDecodeError`). -/
inductive RpcAttempt where
  | curlFail (returncode : Int)
  | response (decoded : Option Json)

/-- Per-attempt control flow inside a retry loop: success with a value, a
retry that sleeps the exponential `RETRY_BASE_TIME_SEC * 2 ^ i`, a retry that
sleeps the literal constant 3 (the remote fetch's `error`-field branch), or
an uncaught exception terminating the interpreter. -/
inductive AttemptStep where
  | success (n : Int)
  | retryExp
  | retryConst3
  | crash (e : PyExc)
deriving DecidableEq, Repr

/-- Extraction `int(result['result']['data'][0]['epoch'])` from the decoded
response, with Python's exception behavior at each step. -/
def epochFromJson (j : Json) : Except PyExc Int := do
  let r ← pyGetItemStr j ("result")
  let d ← pyGetItemStr r ("data")
  let e0 ← pyGetItemNat d 0
  let ep ← pyGetItemStr e0 ("epoch")
  pyIntJson ep

/-- Whether an exception is caught by `except (KeyError, IndexError,
json.JSONDecodeError)` — the clause used by both source functions.  Note
`ValueError` (raised by `int()` on a malformed literal) and `TypeError` are
NOT in this set. -/
def caughtByExceptClause (e : PyExc) : Bool :=
  match e with
  | .keyError => true
  | .indexError => true
  | .jsonDecodeError => true
  | _ => false

/-- One attempt of the body of `get_current_network_epoch`'s retry loop:
curl failure is caught (`except subprocess.CalledProcessError`) and retried
with exponential sleep; a `JSONDecodeError` from `json.loads` is caught and
retried with exponential sleep; a response carrying an `error` key is retried
with the literal `time.sleep(3)`; otherwise the epoch is extracted, with
`KeyError`/`IndexError`/`JSONDecodeError` retried exponentially and any other
exception (for example `ValueError` from `int()`) propagating uncaught. -/
def gcneAttempt (a : RpcAttempt) : AttemptStep :=
  match a with
  | .curlFail _ => .retryExp
  | .response none => .retryExp
  | .response (some j) =>
    match pyContains ("error") j with
    | .error e => .crash e
    | .ok true => .retryConst3
    | .ok false =>
      match epochFromJson j with
      | .ok n => .success n
      | .error e => if caughtByExceptClause e then .retryExp else .crash e

/-- The retry-loop skeleton shared verbatim by both source functions
(`for i in range(NUM_RETRIES): ...` ending in `print`/`exit(1)`): `i` is the
current value of the loop variable, the second argument the number of loop
iterations left.  Returns the outcome plus the list of sleep durations
performed, in order. -/
def attemptLoop (step : Nat → AttemptStep) : Nat → Nat → PyOutcome Int × List Nat
  | _, 0 => (.exitP 1, [])
  | i, fuel + 1 =>
    match step i with
    | .success n => (.ret n, [])
    | .crash e => (.raise e, [])
    | .retryConst3 =>
      let r := attemptLoop step (i + 1) fuel
      (r.1, 3 :: r.2)
    | .retryExp =>
      let r := attemptLoop step (i + 1) fuel
      (r.1, RETRY_BASE_TIME_SEC * 2 ^ i :: r.2)

/-- The retry loop of `get_current_network_epoch`. -/
def gcneLoop (oracle : Nat → RpcAttempt) : Nat → Nat → PyOutcome Int × List Nat :=
  attemptLoop fun i => gcneAttempt (oracle i)

/-- `get_current_network_epoch`, with the environment's per-attempt behavior
supplied as an oracle.  After `NUM_RETRIES` retryable failures the function
prints a diagnostic and calls `exit(1)`. -/
def get_current_network_epoch (oracle : Nat → RpcAttempt) : PyOutcome Int × List Nat :=
  gcneLoop oracle 0 NUM_RETRIES

/-- `grep <name>` over the metrics text: keep lines containing the metric
name as a substring (the two metric names contain no regex metacharacters). -/
def grepName (name : String) (lines : List String) : List String :=
  lines.filter fun l => strHasSubstr name l

/-- The second pipeline stage `grep ^[^#;]`: keep nonempty lines whose first
character is neither `#` nor `;`. -/
def grepNonComment (lines : List String) : List String :=
  lines.filter fun l =>
    match l.toList with
    | [] => false
    | c :: _ => !(c == '#') && !(c == ';')

/-- One attempt of the body of `get_local_metric`'s retry loop, given the
lines the local curl produced on that attempt (an empty or unrelated output
models transport failure).  If the filtered pipeline output is empty the
final grep exits nonzero and the `CalledProcessError` is caught and retried;
otherwise `int(result.split()[1])` runs: fewer than two whitespace tokens
raise `IndexError`, which the except clause catches, but the handler's
`result.stdout` on a `bytes` value then raises an uncaught `AttributeError`;
a second token that is not an integer literal raises `ValueError`, which the
clause does not catch.  Both crash the interpreter without sleeping. -/
def glmAttempt (name : String) (lines : List String) : AttemptStep :=
  let out := grepNonComment (grepName name lines)
  if out.isEmpty then .retryExp
  else
    match (pySplitWs (String.intercalate ("\n") out)).get? 1 with
    | none => .crash .attributeError
    | some t =>
      match pyIntStr t with
      | .ok n => .success n
      | .error _ => .crash .valueError

/-- The retry loop of `get_local_metric`, the same skeleton. -/
def glmLoop (oracle : Nat → List String) (name : String) : Nat → Nat → PyOutcome Int × List Nat :=
  attemptLoop fun i => glmAttempt name (oracle i)

/-- `get_local_metric`, with the metrics text produced by each attempt's
curl supplied as an oracle (list of lines per attempt). -/
def get_local_metric (m : Metric) (oracle : Nat → List String) : PyOutcome Int × List Nat :=
  glmLoop oracle m.value 0 NUM_RETRIES

/-- Result of `await_started`: the node started after `i` seconds, or the
60-second budget elapsed without the checkpoint changing (logged, then the
function returns normally anyway). -/
inductive AwaitRes where
  | started (afterSeconds : Nat)
  | failed
deriving DecidableEq, Repr

/-- The loop of `await_started`: at second `i`, read the checkpoint metric
(each call to `get_local_metric` draws on its own attempt oracle `env i`);
return as soon as a reading differs from `start_checkpoint`, else print,
`time.sleep(1)` and continue.  An `exit` or an uncaught exception inside
`get_local_metric` propagates.  The sleep list interleaves the metric
reader's backoff sleeps with the 1-second waits. -/
def awaitLoop (env : Nat → Nat → List String) (start_checkpoint : Int) :
    Nat → Nat → PyOutcome AwaitRes × List Nat
  | _, 0 => (.ret .failed, [])
  | i, fuel + 1 =>
    match get_local_metric .CHECKPOINT (env i) with
    | (.ret v, s) =>
      if v ≠ start_checkpoint then (.ret (.started i), s)
      else
        let r := awaitLoop env start_checkpoint (i + 1) fuel
        (r.1, s ++ 1 :: r.2)
    | (.exitP c, s) => (.exitP c, s)
    | (.raise e, s) => (.raise e, s)

/-- `await_started`: poll the checkpoint metric once per second for up to
`START_AWAIT_TIME_SEC` seconds. -/
def await_started (env : Nat → Nat → List String) (start_checkpoint : Int) :
    PyOutcome AwaitRes × List Nat :=
  awaitLoop env start_checkpoint 0 START_AWAIT_TIME_SEC

/-- The mutable state of `main`'s polling loop: `current_epoch`,
`current_checkpoint`, and `current_time` (the `datetime.now()` sample taken
at the most recent epoch advance, or at loop entry). -/
structure LoopSt where
  current_epoch : Int
  current_checkpoint : Int
  current_time : Int
deriving DecidableEq, Repr

/-- What one polling iteration observes: the two `get_local_metric` readings
(both assumed to return normally; retry behavior lives in the reader model)
and the `datetime.now()` sample taken in that iteration. -/
structure PollObs where
  checkpoint : Int
  epoch : Int
  now : Int
deriving DecidableEq, Repr

/-- One unfolding of the `while current_epoch < end_epoch` body. -/
inductive StepOut where
  | finished
  | stuckCheckpoint
  | stuckEpoch
  | next (s : LoopSt)
deriving DecidableEq, Repr

/-- One iteration of `main`'s polling loop (source lines 122-144): if the
loop guard fails the loop finishes; otherwise after the 10-second sleep the
new checkpoint reading is compared with the stored one (equality is an
immediate `exit(1)`), the stored checkpoint is updated, and the new epoch
reading either advances `current_epoch` and resets `current_time`, or - when
more than `EPOCH_STUCK_THRESHOLD_SEC` seconds have passed since
`current_time` - is an immediate `exit(1)`. -/
def pollStep (end_epoch : Int) (s : LoopSt) (o : PollObs) : StepOut :=
  if s.current_epoch < end_epoch then
    if o.checkpoint = s.current_checkpoint then .stuckCheckpoint
    else
      let s1 : LoopSt := { s with current_checkpoint := o.checkpoint }
      if o.epoch > s.current_epoch then
        .next { s1 with current_epoch := o.epoch, current_time := o.now }
      else if o.now - s.current_time > (EPOCH_STUCK_THRESHOLD_SEC : Int) then
        .stuckEpoch
      else .next s1
  else .finished

/-- Result of running the polling loop to completion: normal exit of the
`while` (with the final state and the number of body executions, each of
which slept 10 seconds), one of the two fatal stalls (`exit(1)`), or fuel
exhaustion (a model artifact standing for a run still in progress). -/
inductive PollResult where
  | succeeded (final : LoopSt) (iters : Nat)
  | stuckCheckpoint (iter : Nat) (cp : Int)
  | stuckEpoch (iter : Nat) (ep : Int)
  | outOfFuel (s : LoopSt)
deriving DecidableEq, Repr

/-- The polling loop, iterated; `i` numbers the iterations and indexes the
observation oracle. -/
def pollLoop (end_epoch : Int) (obs : Nat → PollObs) :
    Nat → Nat → LoopSt → PollResult
  | 0, _, s => .outOfFuel s
  | fuel + 1, i, s =>
    match pollStep end_epoch s (obs i) with
    | .finished => .succeeded s i
    | .stuckCheckpoint => .stuckCheckpoint i s.current_checkpoint
    | .stuckEpoch => .stuckEpoch i s.current_epoch
    | .next s' => pollLoop end_epoch obs fuel (i + 1) s'

/-- The success report printed by `main` before `exit(0)`: target epoch,
starting epoch, checkpoint delta `current_checkpoint - start_checkpoint`,
and elapsed seconds since `start_time` (which is set at loop entry, after
the startup wait - not at process start).  The printed figure is
`elapsed_seconds / 60` minutes. -/
structure SyncReport where
  end_epoch : Int
  start_epoch : Int
  checkpoint_delta : Int
  elapsed_seconds : Int
deriving DecidableEq, Repr

/-- Terminal outcome of `main` after the startup wait. -/
inductive MonitorOutcome where
  | success (r : SyncReport)
  | checkpointStall (iter : Nat) (cp : Int)
  | epochStall (iter : Nat) (ep : Int)
  | timeout
deriving DecidableEq, Repr

/-- The process exit status each terminal outcome produces (`none` for the
fuel artifact). -/
def exitCodeOf : MonitorOutcome → Option Nat
  | .success _ => some 0
  | .checkpointStall _ _ => some 1
  | .epochStall _ _ => some 1
  | .timeout => none

/-- The process exit status a polling-loop result leads to: a normal loop
exit reaches `exit(0)` at the end of `main`, either stall calls `exit(1)`
directly. -/
def pollExitCode : PollResult → Option Nat
  | .succeeded _ _ => some 0
  | .stuckCheckpoint _ _ => some 1
  | .stuckEpoch _ _ => some 1
  | .outOfFuel _ => none

/-- `main` from loop entry (source lines 120-150): starting from
`current_epoch = start_epoch`, `current_checkpoint = start_checkpoint`,
`start_time = current_time = t0`, run the polling loop; on normal loop exit
take a final `datetime.now()` sample `tFinal`, report, and `exit(0)`. -/
def runMonitor (end_epoch start_epoch start_checkpoint t0 : Int)
    (obs : Nat → PollObs) (tFinal : Int) (fuel : Nat) : MonitorOutcome :=
  match pollLoop end_epoch obs fuel 0 ⟨start_epoch, start_checkpoint, t0⟩ with
  | .succeeded s _ =>
    .success ⟨end_epoch, start_epoch, s.current_checkpoint - start_checkpoint, tFinal - t0⟩
  | .stuckCheckpoint i cp => .checkpointStall i cp
  | .stuckEpoch i ep => .epochStall i ep
  | .outOfFuel _ => .timeout

/-- The option-processing loop of `main` (source lines 98-104) over the
pairs getopt produced: `--env` replaces the environment name, `--end-epoch`
runs `int(arg)` (whose `ValueError` on a malformed argument propagates) and
records the result. -/
def parseOpts : List (String × String) → String → Option Int →
    Except PyExc (String × Option Int)
  | [], env, ee => .ok (env, ee)
  | (o, a) :: rest, env, ee =>
    if o = "--env" then parseOpts rest a ee
    else if o = "--end-epoch" then
      match pyIntStr a with
      | .ok n => parseOpts rest env (some n)
      | .error e => .error e
    else parseOpts rest env ee

/-- Resolution of the target epoch (source lines 106-107): when option
processing leaves `end_epoch` unset, call the remote fetcher (its value is
passed in as `remoteEpoch`); the boolean records whether that remote call
was made. -/
def resolveEndEpoch (opts : List (String × String)) (remoteEpoch : Int) :
    Except PyExc (Int × Bool) :=
  match parseOpts opts "testnet" none with
  | .error e => .error e
  | .ok (_, some n) => .ok (n, false)
  | .ok (_, none) => .ok (remoteEpoch, true)

/-- A well-shaped RPC response whose `result.data[0].epoch` is the given
string. -/
def rpcOk (epochStr : String) : RpcAttempt :=
  .response (some (Json.obj
    [("result", Json.obj [("data", Json.arr [Json.obj [("epoch", Json.str epochStr)]])])]))

/-- An RPC response carrying a JSON-RPC-level `error` field. -/
def rpcErrAttempt : RpcAttempt :=
  .response (some (Json.obj [("error", Json.str ("boom"))]))

/-- Remote oracle: `error`-field failures on attempts 0 and 1, success on
attempt 2. -/
def oracleErrThenOk : Nat → RpcAttempt :=
  fun k => if k < 2 then rpcErrAttempt else rpcOk ("42")

/-- Remote oracle: attempt 0 has a well-shaped response whose epoch string
is not an integer literal; attempt 1 would succeed. -/
def oracleBadEpochThenOk : Nat → RpcAttempt :=
  fun k => if k = 0 then rpcOk ("spam") else rpcOk ("7")

/-- Remote oracle: a transport failure on attempt 0, success on attempt 1. -/
def oracleFailThenOk : Nat → RpcAttempt :=
  fun k => if k = 0 then .curlFail 7 else rpcOk ("42")

/-- Local-metrics oracle: attempt 0 exposes a checkpoint line whose value
token is not an integer literal; every later attempt is well-formed. -/
def oracleBadParseThenOk : Nat → List String :=
  fun k => if k = 0 then ["last_executed_checkpoint abc"] else ["last_executed_checkpoint 500"]

/-- Whether an attempt outcome takes one of the two caught-and-retried
branches. -/
def isRetry : AttemptStep → Bool
  | .retryExp => true
  | .retryConst3 => true
  | _ => false

/-- The delay the loop skeleton sleeps after a failure of attempt `k`. -/
def stepDelay (step : Nat → AttemptStep) (k : Nat) : Nat :=
  match step k with
  | .retryConst3 => 3
  | _ => RETRY_BASE_TIME_SEC * 2 ^ k

/-- The delay schedule of the remote fetch as a function of the oracle. -/
def gcneDelay (oracle : Nat → RpcAttempt) : Nat → Nat :=
  stepDelay fun i => gcneAttempt (oracle i)

/-- Polling observations realizing the spec's example run: in-loop epoch
readings 10, 11, 12 with fresh checkpoints and unremarkable clock samples. -/
def obsSyncExample : Nat → PollObs :=
  fun i =>
    if i = 0 then ⟨101, 10, 10⟩
    else if i = 1 then ⟨102, 11, 20⟩
    else if i = 2 then ⟨103, 12, 30⟩
    else ⟨104, 13, 40⟩

/-- Constant polling observations (checkpoint 0, epoch 5, clock 0), used to
witness the no-epoch-stall theorem: the clock never advancing trivially
satisfies the every-19-minutes freshness hypothesis. -/
def obsConstant : Nat → PollObs :=
  fun _ => ⟨0, 5, 0⟩

lemma attemptLoop_sleeps (step : Nat → AttemptStep) :
    ∀ fuel i, ∃ k,
      (attemptLoop step i fuel).2 = (List.range k).map fun t => stepDelay step (i + t) := by
  intro fuel
  induction fuel with
  | zero => intro i; exact ⟨0, rfl⟩
  | succ fuel ih =>
    intro i
    obtain ⟨k, hk⟩ := ih (i + 1)
    cases ha : step i with
    | success n => exact ⟨0, by simp [attemptLoop, ha]⟩
    | crash e => exact ⟨0, by simp [attemptLoop, ha]⟩
    | retryConst3 =>
      refine ⟨k + 1, ?_⟩
      simp only [attemptLoop, ha]
      rw [hk, List.range_succ_eq_map, List.map_cons, List.map_map]
      congr 1
      · simp [stepDelay, ha]
      · refine List.map_congr_left fun a _ => ?_
        simp only [Function.comp]
        congr 1
        omega
    | retryExp =>
      refine ⟨k + 1, ?_⟩
      simp only [attemptLoop, ha]
      rw [hk, List.range_succ_eq_map, List.map_cons, List.map_map]
      congr 1
      · simp [stepDelay, ha]
      · refine List.map_congr_left fun a _ => ?_
        simp only [Function.comp]
        congr 1
        omega

lemma attemptLoop_ret_of_success (step : Nat → AttemptStep) :
    ∀ fuel i k n, i ≤ k → k < i + fuel →
      (∀ j, i ≤ j → j < k → isRetry (step j) = true) → step k = .success n →
      (attemptLoop step i fuel).1 = .ret n := by
  intro fuel
  induction fuel with
  | zero => intro i k n h1 h2 _ _; omega
  | succ fuel ih =>
    intro i k n h1 h2 hr hs
    rcases Nat.eq_or_lt_of_le h1 with heq | hlt
    · subst heq
      simp [attemptLoop, hs]
    · have hri := hr i le_rfl hlt
      cases ha : step i with
      | success m => rw [ha] at hri; simp [isRetry] at hri
      | crash e => rw [ha] at hri; simp [isRetry] at hri
      | retryConst3 =>
        simp only [attemptLoop, ha]
        exact ih (i + 1) k n hlt (by omega) (fun j hj1 hj2 => hr j (by omega) hj2) hs
      | retryExp =>
        simp only [attemptLoop, ha]
        exact ih (i + 1) k n hlt (by omega) (fun j hj1 hj2 => hr j (by omega) hj2) hs

lemma attemptLoop_exhaust (step : Nat → AttemptStep) :
    ∀ fuel i, (∀ j, i ≤ j → j < i + fuel → isRetry (step j) = true) →
      (attemptLoop step i fuel).1 = .exitP 1 := by
  intro fuel
  induction fuel with
  | zero => intro i _; rfl
  | succ fuel ih =>
    intro i hr
    have hri := hr i le_rfl (by omega)
    cases ha : step i with
    | success m => rw [ha] at hri; simp [isRetry] at hri
    | crash e => rw [ha] at hri; simp [isRetry] at hri
    | retryConst3 =>
      simp only [attemptLoop, ha]
      exact ih (i + 1) fun j hj1 hj2 => hr j (by omega) (by omega)
    | retryExp =>
      simp only [attemptLoop, ha]
      exact ih (i + 1) fun j hj1 hj2 => hr j (by omega) (by omega)

lemma attemptLoop_crash (step : Nat → AttemptStep) (i fuel : Nat) (e : PyExc)
    (h : step i = .crash e) : attemptLoop step i (fuel + 1) = (.raise e, []) := by
  simp [attemptLoop, h]

lemma glmAttempt_ne_retryConst3 (name : String) (lines : List String) :
    glmAttempt name lines ≠ .retryConst3 := by
  simp only [glmAttempt]
  split
  · simp
  · split
    · simp
    · split <;> simp

lemma stepDelay_glm (name : String) (oracle : Nat → List String) (k : Nat) :
    stepDelay (fun i => glmAttempt name (oracle i)) k = RETRY_BASE_TIME_SEC * 2 ^ k := by
  cases h : glmAttempt name (oracle k) with
  | retryConst3 => exact absurd h (glmAttempt_ne_retryConst3 _ _)
  | success n => simp [stepDelay, h]
  | crash e => simp [stepDelay, h]
  | retryExp => simp [stepDelay, h]

example : gcneAttempt (.curlFail 7) = .retryExp := rfl
example : glmAttempt (Metric.CHECKPOINT).value ["last_executed_checkpoint 1042"] = .success 1042 := rfl
example : (get_local_metric .CHECKPOINT fun _ => ["last_executed_checkpoint abc"]) = (.raise .valueError, []) := rfl
example : (get_current_network_epoch fun _ => .curlFail 7) = (.exitP 1, [3, 6, 12, 24, 48]) := rfl

/-- Claim C1 (counterexample): the claim that every failure branch of both
retried operations sleeps `3 * 2 ^ i` before retry `i` is false.  With
JSON-RPC `error`-field failures on attempts 0 and 1 and success on attempt
2, the run returns 42 after sleeping `[3, 3]`: the delay before retry
attempt 1 is 3 seconds, whereas the claim predicts `3 * 2 ^ 1 = 6`. -/
theorem backoff_exponential_counterexample :
    get_current_network_epoch oracleErrThenOk = (.ret 42, [3, 3])
    ∧ (3 : Nat) ≠ RETRY_BASE_TIME_SEC * 2 ^ 1 :=
  ⟨rfl, by decide⟩

/-- Claim C1 (amended): in every run of either retried operation the sleep
trace is an initial segment of a fixed per-attempt schedule: for the local
metric read the delay before retry `t` is always `RETRY_BASE_TIME_SEC *
2 ^ t`, and for the remote fetch it is `gcneDelay`, which is
`RETRY_BASE_TIME_SEC * 2 ^ t` on the transport-failure and malformed-shape
branches but the constant 3 on the JSON-RPC `error`-field branch (third
conjunct, shown at retry index 1).  A run of five transport failures sleeps
exactly 3, 6, 12, 24, 48 seconds, totalling 93. -/
theorem backoff_delay_schedule :
    (∀ oracle : Nat → RpcAttempt,
      ∃ k, (get_current_network_epoch oracle).2 = (List.range k).map (gcneDelay oracle))
    ∧ (∀ (m : Metric) (oracle : Nat → List String),
      ∃ k, (get_local_metric m oracle).2
        = (List.range k).map fun t => RETRY_BASE_TIME_SEC * 2 ^ t)
    ∧ (∀ e : Json, gcneDelay (fun _ => .response (some (Json.obj [("error", e)]))) 1 = 3)
    ∧ (get_current_network_epoch fun _ => .curlFail 7).2 = [3, 6, 12, 24, 48]
    ∧ (get_local_metric .CHECKPOINT fun _ => []).2 = [3, 6, 12, 24, 48]
    ∧ ([3, 6, 12, 24, 48] : List Nat).sum = 93 := by
  refine ⟨?_, ?_, ?_, rfl, rfl, by decide⟩
  · intro oracle
    obtain ⟨k, hk⟩ := attemptLoop_sleeps (fun i => gcneAttempt (oracle i)) NUM_RETRIES 0
    refine ⟨k, ?_⟩
    simp only [Nat.zero_add] at hk
    exact hk
  · intro m oracle
    obtain ⟨k, hk⟩ := attemptLoop_sleeps (fun i => glmAttempt m.value (oracle i)) NUM_RETRIES 0
    refine ⟨k, ?_⟩
    simp only [Nat.zero_add, stepDelay_glm] at hk
    exact hk
  · intro e
    rfl

/-- Claim C2 (code bug): with a metrics line whose value token is not an
integer literal (`last_executed_checkpoint abc`) on attempt 0,
`get_local_metric` raises an uncaught `ValueError` (the except clause lists
`json.JSONDecodeError`, a subclass of `ValueError`, not `ValueError`
itself), sleeping nothing and never reaching attempt 1, which would have
returned 500.  The third conjunct records that the attempt is not classified
as retryable; the claim requires it to be counted, slept on and retried. -/
theorem local_metric_parse_crash :
    get_local_metric .CHECKPOINT oracleBadParseThenOk = (.raise .valueError, [])
    ∧ glmAttempt (Metric.CHECKPOINT).value (oracleBadParseThenOk 1) = .success 500
    ∧ isRetry (glmAttempt (Metric.CHECKPOINT).value (oracleBadParseThenOk 0)) = false :=
  ⟨rfl, rfl, rfl⟩

/-- Claim C3 (counterexample): a well-shaped response whose
`result.data[0].epoch` string is not coercible to an integer is not a
retryable failure: `int()` raises `ValueError`, which the except clause
does not catch, so the process crashes at attempt 0 with no sleep even
though attempt 1 would have returned the epoch 7. -/
theorem remote_epoch_value_crash_counterexample :
    get_current_network_epoch oracleBadEpochThenOk = (.raise .valueError, [])
    ∧ gcneAttempt (oracleBadEpochThenOk 1) = .success 7 :=
  ⟨rfl, rfl⟩

/-- Claim C3 (amended): transport failure, undecodable JSON, a JSON-RPC
`error` field, and a missing-key shape are all retryable failures of the
remote fetch, and after any run of such failures a successful attempt
within the 5-attempt budget returns its epoch as an integer; but an epoch
value that cannot be coerced (and any shape error outside `KeyError`,
`IndexError`, `JSONDecodeError`) raises an uncaught exception that ends the
run immediately with no sleep; the `error`-field branch also sleeps a
constant 3 s rather than the exponential delay. -/
theorem remote_fetch_retryable_failures :
    (∀ (oracle : Nat → RpcAttempt) (k : Nat) (n : Int), k < NUM_RETRIES →
      (∀ j, j < k → isRetry (gcneAttempt (oracle j)) = true) →
      gcneAttempt (oracle k) = .success n →
      (get_current_network_epoch oracle).1 = .ret n)
    ∧ (∀ c : Int, gcneAttempt (.curlFail c) = .retryExp)
    ∧ gcneAttempt (.response none) = .retryExp
    ∧ (∀ e : Json, gcneAttempt (.response (some (Json.obj [("error", e)]))) = .retryConst3)
    ∧ gcneAttempt (.response (some (Json.obj []))) = .retryExp
    ∧ (∀ (oracle : Nat → RpcAttempt) (i fuel : Nat) (e : PyExc),
      gcneAttempt (oracle i) = .crash e →
      gcneLoop oracle i (fuel + 1) = (.raise e, [])) := by
  refine ⟨?_, fun c => rfl, rfl, fun e => rfl, rfl, ?_⟩
  · intro oracle k n hk hr hs
    exact attemptLoop_ret_of_success (fun i => gcneAttempt (oracle i)) NUM_RETRIES 0 k n
      (Nat.zero_le k) (by omega) (fun j _ hj2 => hr j hj2) hs
  · intro oracle i fuel e h
    exact attemptLoop_crash (fun j => gcneAttempt (oracle j)) i fuel e h

/-- Claim C3 (amended) witness: a transport failure on attempt 0 followed
by a good response on attempt 1 returns epoch 42. -/
theorem remote_fetch_retryable_failures_witness :
    (get_current_network_epoch oracleFailThenOk).1 = .ret 42 :=
  remote_fetch_retryable_failures.1 oracleFailThenOk 1 42 (by decide)
    (fun j hj => by
      have hj0 : j = 0 := by omega
      subst hj0
      rfl)
    rfl

/-- Claim C8: when five consecutive attempts all take a retryable-failure
branch, each operation prints its diagnostic and terminates the whole
process with `exit(1)`: the outcome is `exitP 1`, never a returned value
and never an exception propagated to the caller. -/
theorem retry_exhaustion_fatal :
    (∀ oracle : Nat → RpcAttempt,
      (∀ j, j < NUM_RETRIES → isRetry (gcneAttempt (oracle j)) = true) →
      (get_current_network_epoch oracle).1 = .exitP 1)
    ∧ (∀ (m : Metric) (oracle : Nat → List String),
      (∀ j, j < NUM_RETRIES → isRetry (glmAttempt m.value (oracle j)) = true) →
      (get_local_metric m oracle).1 = .exitP 1) := by
  constructor
  · intro oracle hr
    exact attemptLoop_exhaust (fun i => gcneAttempt (oracle i)) NUM_RETRIES 0
      (fun j _ hj2 => hr j (by omega))
  · intro m oracle hr
    exact attemptLoop_exhaust (fun i => glmAttempt m.value (oracle i)) NUM_RETRIES 0
      (fun j _ hj2 => hr j (by omega))

/-- Claim C8 witness: five transport failures exhaust the remote fetch and
five empty metrics reads exhaust the local reader; both exit with status 1. -/
theorem retry_exhaustion_fatal_witness :
    (get_current_network_epoch fun _ => .curlFail 7).1 = .exitP 1
    ∧ (get_local_metric .EPOCH fun _ => []).1 = .exitP 1 :=
  ⟨retry_exhaustion_fatal.1 (fun _ => .curlFail 7) (fun _ _ => rfl),
   retry_exhaustion_fatal.2 .EPOCH (fun _ => []) (fun _ _ => rfl)⟩

lemma pollStep_finished_iff (ee : Int) (s : LoopSt) (o : PollObs) :
    pollStep ee s o = .finished ↔ ee ≤ s.current_epoch := by
  constructor
  · intro h
    by_cases h1 : s.current_epoch < ee
    · exfalso
      unfold pollStep at h
      rw [if_pos h1] at h
      split at h
      · cases h
      · split at h
        · cases h
        · split at h <;> cases h
    · omega
  · intro h
    unfold pollStep
    rw [if_neg (by omega)]

lemma pollLoop_succeeded_le (ee : Int) (obs : Nat → PollObs) :
    ∀ (fuel i0 : Nat) (s0 s : LoopSt) (i : Nat),
      pollLoop ee obs fuel i0 s0 = .succeeded s i → ee ≤ s.current_epoch := by
  intro fuel
  induction fuel with
  | zero => intro i0 s0 s i h; cases h
  | succ fuel ih =>
    intro i0 s0 s i h
    rw [pollLoop] at h
    cases hstep : pollStep ee s0 (obs i0) with
    | finished =>
      rw [hstep] at h
      cases h
      exact (pollStep_finished_iff ee s0 (obs i0)).mp hstep
    | stuckCheckpoint => rw [hstep] at h; cases h
    | stuckEpoch => rw [hstep] at h; cases h
    | next s' =>
      rw [hstep] at h
      exact ih (i0 + 1) s' s i h

/-- Claim C4: in the POLLING state (loop guard `current_epoch < end_epoch`
holding), a checkpoint reading equal to the stored checkpoint terminates
the run immediately as a checkpoint stall with exit status 1, whatever the
epoch reading, epoch state or clock; a differing reading updates the stored
checkpoint to the new value in the continuing state. -/
theorem checkpoint_stall_detection (ee : Int) (obs : Nat → PollObs) (fuel i : Nat)
    (s : LoopSt) (h : s.current_epoch < ee) :
    ((obs i).checkpoint = s.current_checkpoint →
      pollLoop ee obs (fuel + 1) i s = .stuckCheckpoint i s.current_checkpoint
      ∧ pollExitCode (pollLoop ee obs (fuel + 1) i s) = some 1)
    ∧ ((obs i).checkpoint ≠ s.current_checkpoint →
      ∀ s', pollStep ee s (obs i) = .next s' →
        s'.current_checkpoint = (obs i).checkpoint) := by
  constructor
  · intro hc
    have hstep : pollStep ee s (obs i) = .stuckCheckpoint := by
      unfold pollStep
      rw [if_pos h, if_pos hc]
    constructor
    · rw [pollLoop, hstep]
    · rw [pollLoop, hstep]
      rfl
  · intro hc s' hstep
    unfold pollStep at hstep
    rw [if_pos h, if_neg hc] at hstep
    split at hstep
    · cases hstep
      rfl
    · split at hstep
      · cases hstep
      · cases hstep
        rfl

/-- Claim C4 witness: with epoch 5, target 10, stored checkpoint 99 and a
reading of 99 again, the loop stops at iteration 0 as a checkpoint stall
with exit status 1. -/
theorem checkpoint_stall_detection_witness :
    pollLoop 10 (fun _ => ⟨99, 5, 0⟩) 3 0 ⟨5, 99, 0⟩ = .stuckCheckpoint 0 99
    ∧ pollExitCode (pollLoop 10 (fun _ => ⟨99, 5, 0⟩) 3 0 ⟨5, 99, 0⟩) = some 1 :=
  (checkpoint_stall_detection 10 (fun _ => ⟨99, 5, 0⟩) 2 0 ⟨5, 99, 0⟩ (by decide)).1 rfl

/-- Claim C6: the polling loop finishes normally exactly when
`current_epoch >= end_epoch` (first conjunct, both directions of the loop
guard); on any normal loop exit `main` terminates with status 0 reporting
the target and starting epochs, the checkpoint delta
`current_checkpoint - start_checkpoint`, and the elapsed seconds
`tF - t0` measured from `t0`, the clock sample taken at loop entry after
the startup wait — the process start time does not appear in the model of
the report at all. -/
theorem success_exit :
    (∀ (ee : Int) (s : LoopSt) (o : PollObs),
      pollStep ee s o = .finished ↔ ee ≤ s.current_epoch)
    ∧ (∀ (ee se sc t0 : Int) (obs : Nat → PollObs) (tF : Int) (fuel : Nat)
        (s : LoopSt) (i : Nat),
      pollLoop ee obs fuel 0 ⟨se, sc, t0⟩ = .succeeded s i →
      runMonitor ee se sc t0 obs tF fuel
        = .success ⟨ee, se, s.current_checkpoint - sc, tF - t0⟩
      ∧ exitCodeOf (runMonitor ee se sc t0 obs tF fuel) = some 0
      ∧ ee ≤ s.current_epoch) := by
  constructor
  · exact pollStep_finished_iff
  · intro ee se sc t0 obs tF fuel s i hpoll
    refine ⟨?_, ?_, pollLoop_succeeded_le ee obs fuel 0 ⟨se, sc, t0⟩ s i hpoll⟩
    · unfold runMonitor
      rw [hpoll]
    · unfold runMonitor
      rw [hpoll]
      rfl

/-- Claim C6 witness: the spec's example run — start epoch 10, target 12,
in-loop epoch readings 10, 11, 12 — ends with status 0, reporting a sync
from epoch 10 to epoch 12 with checkpoint delta 3 and the loop-entry-based
elapsed time 40 seconds. -/
theorem success_exit_witness :
    runMonitor 12 10 100 0 obsSyncExample 40 5 = .success ⟨12, 10, 3, 40⟩
    ∧ exitCodeOf (runMonitor 12 10 100 0 obsSyncExample 40 5) = some 0 :=
  ⟨(success_exit.2 12 10 100 0 obsSyncExample 40 5 ⟨12, 103, 30⟩ 3 rfl).1,
   (success_exit.2 12 10 100 0 obsSyncExample 40 5 ⟨12, 103, 30⟩ 3 rfl).2.1⟩

/-- Claim C10: when the startup epoch reading already reaches the target,
the loop guard fails at once: the loop finishes after 0 body executions (so
no stall check runs and no 10-second sleep happens — with no sleeps the
clock sample after the loop is still `t0`), and the process exits with
status 0 reporting checkpoint delta `sc - sc = 0` and elapsed 0 seconds. -/
theorem immediate_success_no_polling (ee se sc t0 : Int) (obs : Nat → PollObs)
    (fuel : Nat) (h : ee ≤ se) :
    pollLoop ee obs (fuel + 1) 0 ⟨se, sc, t0⟩ = .succeeded ⟨se, sc, t0⟩ 0
    ∧ runMonitor ee se sc t0 obs t0 (fuel + 1) = .success ⟨ee, se, 0, 0⟩
    ∧ exitCodeOf (runMonitor ee se sc t0 obs t0 (fuel + 1)) = some 0 := by
  have hstep : pollStep ee ⟨se, sc, t0⟩ (obs 0) = .finished :=
    (pollStep_finished_iff ee ⟨se, sc, t0⟩ (obs 0)).mpr h
  have hloop : pollLoop ee obs (fuel + 1) 0 ⟨se, sc, t0⟩ = .succeeded ⟨se, sc, t0⟩ 0 := by
    rw [pollLoop, hstep]
  refine ⟨hloop, ?_, ?_⟩
  · unfold runMonitor
    rw [hloop]
    simp
  · unfold runMonitor
    rw [hloop]
    rfl

/-- Claim C10 witness: start epoch 12 already past target 10 — immediate
status-0 exit with zero checkpoint delta and zero elapsed time, for any
observations. -/
theorem immediate_success_no_polling_witness :
    runMonitor 10 12 500 77 (fun _ => ⟨0, 0, 0⟩) 77 4 = .success ⟨10, 12, 0, 0⟩ :=
  (immediate_success_no_polling 10 12 500 77 (fun _ => ⟨0, 0, 0⟩) 3 (by decide)).2.1

lemma pollLoop_no_epoch_stall_aux (ee : Int) (obs : Nat → PollObs)
    (hmono : ∀ j k : Nat, j ≤ k → (obs j).epoch ≤ (obs k).epoch)
    (hglobal : ∀ j k : Nat, j ≤ k → (obs j).epoch = (obs k).epoch →
      (obs k).now - (obs j).now ≤ 19 * 60) :
    ∀ (fuel i : Nat) (s : LoopSt),
      s.current_epoch ≤ (obs i).epoch →
      (∀ k, i ≤ k → (obs k).epoch = s.current_epoch →
        (obs k).now - s.current_time ≤ 19 * 60) →
      ∀ (m : Nat) (ep : Int), pollLoop ee obs fuel i s ≠ .stuckEpoch m ep := by
  intro fuel
  induction fuel with
  | zero =>
    intro i s _ _ m ep h
    cases h
  | succ fuel ih =>
    intro i s hce hfresh m ep
    rw [pollLoop]
    cases hstep : pollStep ee s (obs i) with
    | finished => simp
    | stuckCheckpoint => simp
    | stuckEpoch =>
      exfalso
      unfold pollStep at hstep
      by_cases h1 : s.current_epoch < ee
      case neg => rw [if_neg h1] at hstep; cases hstep
      rw [if_pos h1] at hstep
      by_cases h2 : (obs i).checkpoint = s.current_checkpoint
      case pos => rw [if_pos h2] at hstep; cases hstep
      rw [if_neg h2] at hstep
      by_cases h3 : (obs i).epoch > s.current_epoch
      case pos => rw [if_pos h3] at hstep; cases hstep
      rw [if_neg h3] at hstep
      by_cases h4 : (obs i).now - s.current_time > (EPOCH_STUCK_THRESHOLD_SEC : Int)
      case neg => rw [if_neg h4] at hstep; cases hstep
      have heq : (obs i).epoch = s.current_epoch := le_antisymm (not_lt.mp h3) hce
      have hle := hfresh i le_rfl heq
      have hconst : (EPOCH_STUCK_THRESHOLD_SEC : Int) = 1200 := by
        norm_num [EPOCH_STUCK_THRESHOLD_SEC]
      rw [hconst] at h4
      omega
    | next s' =>
      unfold pollStep at hstep
      by_cases h1 : s.current_epoch < ee
      case neg => rw [if_neg h1] at hstep; cases hstep
      rw [if_pos h1] at hstep
      by_cases h2 : (obs i).checkpoint = s.current_checkpoint
      case pos => rw [if_pos h2] at hstep; cases hstep
      rw [if_neg h2] at hstep
      by_cases h3 : (obs i).epoch > s.current_epoch
      · rw [if_pos h3] at hstep
        cases hstep
        apply ih (i + 1)
        · exact hmono i (i + 1) (by omega)
        · intro k hk hek
          exact hglobal i k (by omega) hek.symm
      · rw [if_neg h3] at hstep
        by_cases h4 : (obs i).now - s.current_time > (EPOCH_STUCK_THRESHOLD_SEC : Int)
        case pos => rw [if_pos h4] at hstep; cases hstep
        rw [if_neg h4] at hstep
        cases hstep
        apply ih (i + 1)
        · have heq : (obs i).epoch = s.current_epoch := le_antisymm (not_lt.mp h3) hce
          calc s.current_epoch = (obs i).epoch := heq.symm
            _ ≤ (obs (i + 1)).epoch := hmono i (i + 1) (by omega)
        · intro k hk hek
          exact hfresh k (by omega) hek

/-- Claim C5: first conjunct — in the POLLING state, when the checkpoint is
fresh but the epoch reading did not increase and the clock sample exceeds
`last_epoch_advance_time` (`current_time`) by more than
`EPOCH_STUCK_THRESHOLD_SEC = 20` minutes, the run terminates immediately as
an epoch stall with exit status 1.  Second conjunct — for any run whose
epoch readings are monotone and strictly increase at least once every 19
minutes (no two equal-epoch samples, nor any sample still equal to the
starting epoch, lie more than 19 minutes apart on the clock), the loop
never produces an epoch stall, however much fuel the run is given: each
increase resets `current_time`, restarting the 20-minute budget. -/
theorem epoch_stall_policy :
    (∀ (ee : Int) (obs : Nat → PollObs) (fuel i : Nat) (s : LoopSt),
      s.current_epoch < ee →
      (obs i).checkpoint ≠ s.current_checkpoint →
      ¬((obs i).epoch > s.current_epoch) →
      (obs i).now - s.current_time > (EPOCH_STUCK_THRESHOLD_SEC : Int) →
      pollLoop ee obs (fuel + 1) i s = .stuckEpoch i s.current_epoch
      ∧ pollExitCode (pollLoop ee obs (fuel + 1) i s) = some 1)
    ∧ (∀ (ee se sc t0 : Int) (obs : Nat → PollObs) (fuel : Nat),
      (∀ j k : Nat, j ≤ k → (obs j).epoch ≤ (obs k).epoch) →
      se ≤ (obs 0).epoch →
      (∀ j k : Nat, j ≤ k → (obs j).epoch = (obs k).epoch →
        (obs k).now - (obs j).now ≤ 19 * 60) →
      (∀ k : Nat, (obs k).epoch = se → (obs k).now - t0 ≤ 19 * 60) →
      ∀ (m : Nat) (ep : Int),
        pollLoop ee obs fuel 0 ⟨se, sc, t0⟩ ≠ .stuckEpoch m ep) := by
  constructor
  · intro ee obs fuel i s h1 h2 h3 h4
    have hstep : pollStep ee s (obs i) = .stuckEpoch := by
      unfold pollStep
      rw [if_pos h1, if_neg h2, if_neg h3, if_pos h4]
    constructor
    · rw [pollLoop, hstep]
    · rw [pollLoop, hstep]
      rfl
  · intro ee se sc t0 obs fuel hmono hstart hglobal hfresh0 m ep
    apply pollLoop_no_epoch_stall_aux ee obs hmono hglobal fuel 0 ⟨se, sc, t0⟩ hstart
    intro k _ hek
    exact hfresh0 k hek

/-- Claim C5 witness: an epoch stall fires with epoch 5, target 10, a fresh
checkpoint and a clock 2000 seconds past the last advance; and with
constant observations (epoch 5, clock never advancing, satisfying the
19-minute freshness hypotheses trivially) no epoch stall is ever produced. -/
theorem epoch_stall_policy_witness :
    (pollLoop 10 (fun _ => ⟨100, 5, 2000⟩) 1 0 ⟨5, 99, 0⟩ = .stuckEpoch 0 5
      ∧ pollExitCode (pollLoop 10 (fun _ => ⟨100, 5, 2000⟩) 1 0 ⟨5, 99, 0⟩) = some 1)
    ∧ pollLoop 10 obsConstant 5 0 ⟨5, -1, 0⟩ ≠ .stuckEpoch 0 5 :=
  ⟨epoch_stall_policy.1 10 (fun _ => ⟨100, 5, 2000⟩) 0 0 ⟨5, 99, 0⟩ (by decide)
      (by decide) (by decide) (by decide),
   epoch_stall_policy.2 10 5 (-1) 0 obsConstant 5
      (fun _ _ _ => le_rfl) le_rfl (fun _ _ _ _ => by norm_num [obsConstant])
      (fun _ _ => by norm_num [obsConstant]) 0 5⟩

lemma parseOpts_no_flag : ∀ (opts : List (String × String)) (env : String) (ee : Option Int),
    (∀ a, ("--end-epoch", a) ∉ opts) →
    ∃ env', parseOpts opts env ee = .ok (env', ee) := by
  intro opts
  induction opts with
  | nil => intro env ee _; exact ⟨env, rfl⟩
  | cons p rest ih =>
    intro env ee hno
    obtain ⟨o, a⟩ := p
    have hne : o ≠ "--end-epoch" := by
      intro hcontra
      exact hno a (by rw [hcontra]; exact List.mem_cons_self _ _)
    have hrest : ∀ b, ("--end-epoch", b) ∉ rest :=
      fun b hb => hno b (List.mem_cons_of_mem _ hb)
    by_cases h : o = "--env"
    · obtain ⟨env', he⟩ := ih a ee hrest
      exact ⟨env', by simp only [parseOpts, if_pos h]; exact he⟩
    · obtain ⟨env', he⟩ := ih env ee hrest
      refine ⟨env', ?_⟩
      simp only [parseOpts, if_neg h, if_neg hne]
      exact he

lemma parseOpts_some_stays : ∀ (opts : List (String × String)) (env : String) (n : Int)
    (env' : String) (ee' : Option Int),
    parseOpts opts env (some n) = .ok (env', ee') → ∃ m, ee' = some m := by
  intro opts
  induction opts with
  | nil =>
    intro env n env' ee' h
    cases h
    exact ⟨n, rfl⟩
  | cons p rest ih =>
    intro env n env' ee' h
    obtain ⟨o, a⟩ := p
    simp only [parseOpts] at h
    by_cases h1 : o = "--env"
    · rw [if_pos h1] at h
      exact ih _ _ _ _ h
    · rw [if_neg h1] at h
      by_cases h2 : o = "--end-epoch"
      · rw [if_pos h2] at h
        cases hp : pyIntStr a with
        | ok m =>
          rw [hp] at h
          exact ih _ _ _ _ h
        | error e => rw [hp] at h; cases h
      · rw [if_neg h2] at h
        exact ih _ _ _ _ h

lemma parseOpts_flag_sets : ∀ (opts : List (String × String)) (env : String)
    (ee : Option Int) (a : String),
    ("--end-epoch", a) ∈ opts →
    ∀ env', parseOpts opts env ee ≠ .ok (env', none) := by
  intro opts
  induction opts with
  | nil => intro env ee a ha; exact absurd ha (List.not_mem_nil _)
  | cons p rest ih =>
    intro env ee a ha env' h
    obtain ⟨o, b⟩ := p
    simp only [parseOpts] at h
    by_cases h1 : o = "--env"
    · rw [if_pos h1] at h
      have hmem : ("--end-epoch", a) ∈ rest := by
        rcases List.mem_cons.mp ha with hh | ht
        · exfalso
          cases hh
          exact absurd h1 (by decide)
        · exact ht
      exact ih _ _ a hmem env' h
    · rw [if_neg h1] at h
      by_cases h2 : o = "--end-epoch"
      · rw [if_pos h2] at h
        cases hp : pyIntStr b with
        | ok m =>
          rw [hp] at h
          obtain ⟨mm, hmm⟩ := parseOpts_some_stays rest env m env' none h
          cases hmm
        | error e => rw [hp] at h; cases h
      · rw [if_neg h2] at h
        have hmem : ("--end-epoch", a) ∈ rest := by
          rcases List.mem_cons.mp ha with hh | ht
          · exfalso
            cases hh
            exact h2 rfl
          · exact ht
        exact ih _ _ a hmem env' h

lemma parseOpts_last_flag : ∀ (pre : List (String × String)) (env : String)
    (ee : Option Int) (a : String) (n : Int),
    (∀ b, ("--end-epoch", b) ∉ pre) → pyIntStr a = .ok n →
    ∃ env', parseOpts (pre ++ [("--end-epoch", a)]) env ee = .ok (env', some n) := by
  intro pre
  induction pre with
  | nil =>
    intro env ee a n _ hp
    refine ⟨env, ?_⟩
    simp [parseOpts, hp]
  | cons p rest ih =>
    intro env ee a n hno hp
    obtain ⟨o, b⟩ := p
    have hne : o ≠ "--end-epoch" := by
      intro hcontra
      exact hno b (by rw [hcontra]; exact List.mem_cons_self _ _)
    have hrest : ∀ c, ("--end-epoch", c) ∉ rest :=
      fun c hc => hno c (List.mem_cons_of_mem _ hc)
    by_cases h1 : o = "--env"
    · obtain ⟨env', he⟩ := ih b ee a n hrest hp
      exact ⟨env', by simp only [List.cons_append, parseOpts, if_pos h1]; exact he⟩
    · obtain ⟨env', he⟩ := ih env ee a n hrest hp
      refine ⟨env', ?_⟩
      simp only [List.cons_append, parseOpts, if_neg h1, if_neg hne]
      exact he

/-- Claim C7: when an explicit `--end-epoch` option is supplied the remote
epoch fetch is never invoked (the resolution never reports the
fetch-performed flag); when the option is absent the remote fetch is
performed and its value becomes the target; and a supplied well-formed
`--end-epoch` value is used directly as the target. -/
theorem explicit_end_epoch_skips_fetch :
    (∀ (opts : List (String × String)) (r n : Int),
      (∃ a, ("--end-epoch", a) ∈ opts) →
      resolveEndEpoch opts r ≠ .ok (n, true))
    ∧ (∀ (opts : List (String × String)) (r : Int),
      (∀ a, ("--end-epoch", a) ∉ opts) →
      resolveEndEpoch opts r = .ok (r, true))
    ∧ (∀ (pre : List (String × String)) (a : String) (n r : Int),
      (∀ b, ("--end-epoch", b) ∉ pre) → pyIntStr a = .ok n →
      resolveEndEpoch (pre ++ [("--end-epoch", a)]) r = .ok (n, false)) := by
  refine ⟨?_, ?_, ?_⟩
  · rintro opts r n ⟨a, ha⟩ hcontra
    unfold resolveEndEpoch at hcontra
    cases hp : parseOpts opts "testnet" none with
    | error e => rw [hp] at hcontra; cases hcontra
    | ok q =>
      obtain ⟨env', ee'⟩ := q
      rw [hp] at hcontra
      cases ee' with
      | none => exact parseOpts_flag_sets opts "testnet" none a ha env' hp
      | some m => simp at hcontra
  · intro opts r hno
    obtain ⟨env', hp⟩ := parseOpts_no_flag opts "testnet" none hno
    unfold resolveEndEpoch
    rw [hp]
  · intro pre a n r hno hp
    obtain ⟨env', he⟩ := parseOpts_last_flag pre "testnet" none a n hno hp
    unfold resolveEndEpoch
    rw [he]

/-- Claim C7 witness: `--end-epoch=50` resolves to target 50 without the
remote fetch; with only `--env=mainnet` the remote fetch's value 7 is the
target. -/
theorem explicit_end_epoch_skips_fetch_witness :
    resolveEndEpoch [("--end-epoch", "50")] 99 = .ok (50, false)
    ∧ resolveEndEpoch [("--env", "mainnet")] 7 = .ok (7, true) :=
  ⟨explicit_end_epoch_skips_fetch.2.2 [] "50" 50 99 (fun b => List.not_mem_nil _) rfl,
   explicit_end_epoch_skips_fetch.2.1 [("--env", "mainnet")] 7 (fun a ha => by simp at ha)⟩

lemma awaitLoop_ret (env : Nat → Nat → List String) (sc : Int) (vals : Nat → Int)
    (h : ∀ i, (get_local_metric .CHECKPOINT (env i)).1 = .ret (vals i)) :
    ∀ fuel i, ∃ r, (awaitLoop env sc i fuel).1 = .ret r := by
  intro fuel
  induction fuel with
  | zero => intro i; exact ⟨.failed, rfl⟩
  | succ fuel ih =>
    intro i
    have hi := h i
    rcases hq : get_local_metric .CHECKPOINT (env i) with ⟨o, slp⟩
    rw [hq] at hi
    dsimp only at hi
    subst hi
    by_cases hv : vals i = sc
    · obtain ⟨r, hr⟩ := ih (i + 1)
      refine ⟨r, ?_⟩
      rw [awaitLoop, hq]
      dsimp only
      rw [if_neg (not_not_intro hv)]
      exact hr
    · refine ⟨.started i, ?_⟩
      rw [awaitLoop, hq]
      dsimp only
      rw [if_pos hv]

lemma awaitLoop_failed (env : Nat → Nat → List String) (sc : Int) (vals : Nat → Int)
    (h : ∀ i, (get_local_metric .CHECKPOINT (env i)).1 = .ret (vals i)) :
    ∀ fuel i, (∀ k, i ≤ k → k < i + fuel → vals k = sc) →
      (awaitLoop env sc i fuel).1 = .ret .failed := by
  intro fuel
  induction fuel with
  | zero => intro i _; rfl
  | succ fuel ih =>
    intro i hall
    have hi := h i
    rcases hq : get_local_metric .CHECKPOINT (env i) with ⟨o, slp⟩
    rw [hq] at hi
    dsimp only at hi
    subst hi
    have hv : vals i = sc := hall i le_rfl (by omega)
    rw [awaitLoop, hq]
    dsimp only
    rw [if_neg (not_not_intro hv)]
    exact ih (i + 1) fun k hk1 hk2 => hall k (by omega) (by omega)

lemma awaitLoop_started (env : Nat → Nat → List String) (sc : Int) (vals : Nat → Int)
    (h : ∀ i, (get_local_metric .CHECKPOINT (env i)).1 = .ret (vals i)) :
    ∀ fuel i j, i ≤ j → j < i + fuel → vals j ≠ sc →
      (∀ k, i ≤ k → k < j → vals k = sc) →
      (awaitLoop env sc i fuel).1 = .ret (.started j) := by
  intro fuel
  induction fuel with
  | zero => intro i j h1 h2 _ _; omega
  | succ fuel ih =>
    intro i j h1 h2 hj hall
    have hi := h i
    rcases hq : get_local_metric .CHECKPOINT (env i) with ⟨o, slp⟩
    rw [hq] at hi
    dsimp only at hi
    subst hi
    rcases Nat.eq_or_lt_of_le h1 with heq | hlt
    · subst heq
      rw [awaitLoop, hq]
      dsimp only
      rw [if_pos hj]
    · have hv : vals i = sc := hall i le_rfl hlt
      rw [awaitLoop, hq]
      dsimp only
      rw [if_neg (not_not_intro hv)]
      exact ih (i + 1) j hlt (by omega) hj fun k hk1 hk2 => hall k (by omega) hk2

/-- Claim C9: when every checkpoint read during the startup wait returns
normally, `await_started` never exits or raises (first conjunct: its
outcome is always a normal return, after which `main` unconditionally
proceeds to the polling loop); if all `START_AWAIT_TIME_SEC = 60` per-second
polls read a value equal to `start_checkpoint` it logs the startup failure
and still returns normally; and it returns at the first poll `i < 60` whose
reading differs from `start_checkpoint`. -/
theorem await_started_spec (env : Nat → Nat → List String) (sc : Int) (vals : Nat → Int)
    (h : ∀ i, (get_local_metric .CHECKPOINT (env i)).1 = .ret (vals i)) :
    (∃ r, (await_started env sc).1 = .ret r)
    ∧ ((∀ i, i < START_AWAIT_TIME_SEC → vals i = sc) →
      (await_started env sc).1 = .ret .failed)
    ∧ (∀ i, i < START_AWAIT_TIME_SEC → vals i ≠ sc → (∀ j, j < i → vals j = sc) →
      (await_started env sc).1 = .ret (.started i)) := by
  refine ⟨?_, ?_, ?_⟩
  · exact awaitLoop_ret env sc vals h START_AWAIT_TIME_SEC 0
  · intro hall
    exact awaitLoop_failed env sc vals h START_AWAIT_TIME_SEC 0
      fun k _ hk2 => hall k (by omega)
  · intro i hi hne hall
    exact awaitLoop_started env sc vals h START_AWAIT_TIME_SEC 0 i (Nat.zero_le i)
      (by omega) hne fun k _ hk2 => hall k hk2

/-- Claim C9 witness: with every poll reading checkpoint 100 and
`start_checkpoint = 100`, the startup wait runs its full 60 polls and still
returns normally with the failed-startup result. -/
theorem await_started_spec_witness :
    (await_started (fun _ _ => ["last_executed_checkpoint 100"]) 100).1 = .ret .failed :=
  (await_started_spec (fun _ _ => ["last_executed_checkpoint 100"]) 100 (fun _ => 100)
    (fun _ => rfl)).2.1 (fun _ _ => rfl)
